import Mathlib

/-!
# go-wiki page handlers: a shallow embedding of `src/page/handler.go`

The file embeds the page package of go-wiki (`normalizePath`, `renderPage`,
`GetPageHandler`, `PutPageHandler`, `PostPageHandler`, `PostPreviewHandler`)
and proves properties of it.

Modelling conventions.

* A Go `string` is an immutable sequence of bytes: `GoString := List UInt8`.
  `len(s)` is `s.length`, `s[i:]` is `s.drop i`, `s + t` is `s ++ t` and
  `s == t` is equality of the byte lists.  A Go string literal is written
  `str "..."`, the UTF-8 bytes of the literal.
* `*gin.Context` is split into what a handler reads (`Context`: URL
  parameters, query values, the outcome of `BindJSON`, the client user) and
  what it writes (`Response`: HTTP status and JSON body).  `c.JSON` and
  `c.AbortWithStatusJSON` both write a status and a JSON body; aborting only
  stops later handlers of the chain, which are not part of this package.
* The storage package `repo` is not part of these sources.  Its four
  functions are a parameter (`Repo`) acting on an abstract storage state;
  every handler returns, besides its response, the list of storage calls it
  made and the storage state it leaves behind.
* `blackfriday` and `bluemonday` are third-party libraries; they are
  parameters too (`Env`).
* `fmt.Println(path)` in `normalizePath` writes to standard output and does
  not influence the returned value; it is left out.
-/

namespace GoWiki

/-! ## Strings -/

/-- A Go string: a sequence of bytes. -/
abbrev GoString := List UInt8

/-- The Go string literal with the given text (its UTF-8 bytes). -/
def str (s : String) : GoString := s.toUTF8.data.toList

/-- Reading a Go `map[string]string`, a gin parameter list or the URL query:
the value of the first entry with the key, the empty string when there is
none (the zero value of a map read, the result of `c.Param` and `c.Query` for
an absent key). -/
def lookupOrEmpty (kvs : List (GoString × GoString)) (key : GoString) : GoString :=
  (kvs.lookup key).getD []

/-! ## `normalizePath` -/

/-- The function `normalizePath` of `handler.go`, lines 182-198. -/
def normalizePath (path : GoString) : GoString :=
  if path.length > 0 then
    let lastChar := path.drop (path.length - 1)
    if lastChar = str "/" then
      path ++ str "_default.json"
    else
      path ++ str "/_default.json"
  else if path = str "" then
    str "_default.json"
  else
    path

/-- The three rules of the specification (section 4.1), written from its
words: empty input gives the sentinel alone; input ending in a separator gets
the sentinel appended; any other input gets a separator and the sentinel. -/
def normalizeRef (p : GoString) : GoString :=
  if p = [] then str "_default.json"
  else if str "/" <:+ p then p ++ str "_default.json"
  else p ++ str "/" ++ str "_default.json"

/-! ## `filepath.Split` (Go standard library, Unix) -/

/-- The loop of `filepath.Split`: starting at `i = n - 1`, step down while
`i >= 0` and `path[i]` is not the separator; the result is `i + 1`. -/
def splitIndex (path : GoString) : Nat → Nat
  | 0 => 0
  | n + 1 => if path.get? n = some 47 then n + 1 else splitIndex path n

/-- The standard library's `filepath.Split` on a Unix system (no volume
name, separator `/`): the path is cut right after its last separator. -/
def filepathSplit (path : GoString) : GoString × GoString :=
  let i := splitIndex path path.length
  (path.take i, path.drop i)

/-! ## Data -/

/-- The struct `apiRequest` of `handler.go`. -/
structure apiRequest where
  Path : GoString
  Content : GoString
  deriving DecidableEq, Repr

/-- The struct `apiResponse` of `handler.go`. -/
structure apiResponse where
  Title : GoString
  Content : GoString
  deriving DecidableEq, Repr

/-- Modelled from the spec: the declaration of `common.File` is not in the
sources; a Document has a content type, a raw content and a metadata mapping
(section 3), which are the three fields the handlers use.  A nil map reads
like an empty one. -/
structure File where
  ContentType : GoString
  Content : GoString
  Metadata : List (GoString × GoString)
  deriving DecidableEq, Repr

/-- Modelled from the spec: the declaration of `repo.Commit` is not in the
sources; the handlers fill its fields `Author` and `Message`. -/
structure Commit (User : Type) where
  Author : User
  Message : GoString
  deriving DecidableEq, Repr

/-- A Go `error` as the handlers observe it: `os.IsNotExist(err)` and
`err.Error()`. -/
structure GoError where
  IsNotExist : Bool
  Error : GoString
  deriving DecidableEq, Repr

/-- The JSON value a handler writes: a `common.ApiResponse{Message: ...}` or
an `apiResponse{Title: ..., Content: ...}`. -/
inductive Body where
  | ApiResponse (Message : GoString)
  | page (r : apiResponse)
  deriving DecidableEq, Repr

/-- What a handler writes to the context: HTTP status and JSON body. -/
structure Response where
  Status : Nat
  Body : Body
  deriving DecidableEq, Repr

/-- What a handler reads from the `*gin.Context`. -/
structure Context (User : Type) where
  /-- URL parameters, read by `c.Param`. -/
  Params : List (GoString × GoString)
  /-- URL query values, read by `c.Query`. -/
  QueryValues : List (GoString × GoString)
  /-- The outcome of `c.BindJSON(&data)`: the bound data, or `none` when
  binding returns an error. -/
  BindJSON : Option apiRequest
  /-- The outcome of `common.GetClientUser(c)`: the user, or `none` when the
  second result is false. -/
  ClientUser : Option User

/-- The method `c.Param(key)`. -/
def Context.Param {User : Type} (c : Context User) (key : GoString) : GoString :=
  lookupOrEmpty c.Params key

/-- The method `c.Query(key)`. -/
def Context.Query {User : Type} (c : Context User) (key : GoString) : GoString :=
  lookupOrEmpty c.QueryValues key

/-! ## HTTP status codes (`net/http`) -/

def StatusOK : Nat := 200
def StatusBadRequest : Nat := 400
def StatusUnauthorized : Nat := 401
def StatusNotFound : Nat := 404
def StatusMethodNotAllowed : Nat := 405
def StatusInternalServerError : Nat := 500

/-! ## Collaborators -/

/-- What the page package takes from outside the sources. -/
structure Env where
  /-- The call `blackfriday.Run(input, WithRenderer(NewHTMLRenderer(
  HTMLRendererParameters{AbsolutePrefix: prefix})))`, as a function of the
  prefix and the input. -/
  blackfridayRun : GoString → GoString → GoString
  /-- The call `bluemonday.UGCPolicy().SanitizeBytes`. -/
  sanitizeUGC : GoString → GoString
  /-- The constant `common.WrongAPIUsageError`. -/
  WrongAPIUsageError : GoString
  /-- The message `helper.Unauthorized` writes. -/
  UnauthorizedMessage : GoString

/-- The storage package `repo`, over an abstract storage state `σ`.
`GetFile` and `HasFile` are queries of the state (section 6 of the
specification: `read`, `exists`); `MkdirPage` and `SaveFile` return the new
state and the Go `error` (`none` for `nil`). -/
structure Repo (σ User : Type) where
  GetFile : σ → GoString → Except GoError File
  HasFile : σ → GoString → Bool
  MkdirPage : σ → GoString → σ × Option GoError
  SaveFile : σ → GoString → File → Commit User → σ × Option GoError

/-- A call of a function of `repo`, with its arguments. -/
inductive StorageCall (User : Type) where
  | GetFile (path : GoString)
  | HasFile (path : GoString)
  | MkdirPage (dir : GoString)
  | SaveFile (path : GoString) (file : File) (commit : Commit User)
  deriving DecidableEq, Repr

/-- The result of running a handler: the response written, the storage
calls made, in order, and the storage state afterwards. -/
structure Outcome (σ User : Type) where
  response : Response
  calls : List (StorageCall User)
  store : σ

/-- Modelled from the spec: `helper.Unauthorized` is not in the sources; a
request without an authenticated actor "fails with `Unauthorized`" (section
4.3), HTTP status 401, and the helper is given nothing but the context. -/
def helperUnauthorized (env : Env) : Response :=
  ⟨StatusUnauthorized, .ApiResponse env.UnauthorizedMessage⟩

/-! ## The page package -/

/-- The function `renderPage` of `handler.go`, lines 169-180. -/
def renderPage (env : Env) (html : GoString) : GoString :=
  let output := env.blackfridayRun (str "#/wiki") html
  let output := env.sanitizeUGC output
  output

/-- The handler `GetPageHandler` of `handler.go`, lines 29-64. -/
def GetPageHandler {σ User : Type} (env : Env) (repo : Repo σ User)
    (c : Context User) (s : σ) : Outcome σ User :=
  let path := normalizePath (c.Param (str "path"))
  match repo.GetFile s path with
  | .error err =>
    if err.IsNotExist then
      ⟨⟨StatusNotFound, .ApiResponse (str "Not found")⟩, [.GetFile path], s⟩
    else
      ⟨⟨StatusInternalServerError, .ApiResponse err.Error⟩, [.GetFile path], s⟩
  | .ok file =>
    let format := c.Query (str "format")
    if format = str "no-render" then
      ⟨⟨StatusOK, .page
          { Title := lookupOrEmpty file.Metadata (str "title"),
            Content := file.Content }⟩,
        [.GetFile path], s⟩
    else if file.ContentType = str "text/markdown" then
      ⟨⟨StatusOK, .page
          { Title := lookupOrEmpty file.Metadata (str "title"),
            Content := renderPage env file.Content }⟩,
        [.GetFile path], s⟩
    else
      ⟨⟨StatusMethodNotAllowed, .ApiResponse (str "Content-type is not allowed here")⟩,
        [.GetFile path], s⟩

/-- The handler `PutPageHandler` of `handler.go`, lines 66-108. -/
def PutPageHandler {σ User : Type} (env : Env) (repo : Repo σ User)
    (c : Context User) (s : σ) : Outcome σ User :=
  match c.ClientUser with
  | none => ⟨helperUnauthorized env, [], s⟩
  | some user =>
    let path := normalizePath (c.Param (str "path"))
    match repo.GetFile s path with
    | .error err =>
      if err.IsNotExist then
        ⟨⟨StatusNotFound, .ApiResponse (str "Not found, use POST to create.")⟩,
          [.GetFile path], s⟩
      else
        ⟨⟨StatusInternalServerError, .ApiResponse err.Error⟩, [.GetFile path], s⟩
    | .ok _ =>
      match c.BindJSON with
      | some data =>
        let file : File :=
          { ContentType := str "text/markdown", Content := data.Content, Metadata := [] }
        let commit : Commit User :=
          { Author := user, Message := str "Updated page: " ++ path }
        match repo.SaveFile s path file commit with
        | (s', some err) =>
          ⟨⟨StatusInternalServerError, .ApiResponse err.Error⟩,
            [.GetFile path, .SaveFile path file commit], s'⟩
        | (s', none) =>
          ⟨⟨StatusOK, .ApiResponse (str "Updated page.")⟩,
            [.GetFile path, .SaveFile path file commit], s'⟩
      | none =>
        ⟨⟨StatusBadRequest, .ApiResponse env.WrongAPIUsageError⟩, [.GetFile path], s⟩

/-- The handler `PostPageHandler` of `handler.go`, lines 110-154. -/
def PostPageHandler {σ User : Type} (env : Env) (repo : Repo σ User)
    (c : Context User) (s : σ) : Outcome σ User :=
  match c.ClientUser with
  | none => ⟨helperUnauthorized env, [], s⟩
  | some user =>
    let path := normalizePath (c.Param (str "path"))
    if repo.HasFile s path then
      ⟨⟨StatusMethodNotAllowed, .ApiResponse (str "Page already exists, use PUT to edit.")⟩,
        [.HasFile path], s⟩
    else
      match c.BindJSON with
      | some data =>
        let dir := (filepathSplit path).1
        match repo.MkdirPage s dir with
        | (s₁, some err) =>
          ⟨⟨StatusInternalServerError, .ApiResponse err.Error⟩,
            [.HasFile path, .MkdirPage dir], s₁⟩
        | (s₁, none) =>
          let file : File :=
            { ContentType := str "text/markdown", Content := data.Content, Metadata := [] }
          let commit : Commit User :=
            { Author := user, Message := str "Created new page: " ++ path }
          match repo.SaveFile s₁ path file commit with
          | (s₂, some err) =>
            ⟨⟨StatusInternalServerError, .ApiResponse err.Error⟩,
              [.HasFile path, .MkdirPage dir, .SaveFile path file commit], s₂⟩
          | (s₂, none) =>
            ⟨⟨StatusOK, .ApiResponse (str "Created page.")⟩,
              [.HasFile path, .MkdirPage dir, .SaveFile path file commit], s₂⟩
      | none =>
        ⟨⟨StatusBadRequest, .ApiResponse env.WrongAPIUsageError⟩, [.HasFile path], s⟩

/-- The handler `PostPreviewHandler` of `handler.go`, lines 157-167. -/
def PostPreviewHandler {σ User : Type} (env : Env) (_repo : Repo σ User)
    (c : Context User) (s : σ) : Outcome σ User :=
  match c.BindJSON with
  | some data =>
    ⟨⟨StatusOK, .page { Title := [], Content := renderPage env data.Content }⟩, [], s⟩
  | none =>
    ⟨⟨StatusBadRequest, .ApiResponse env.WrongAPIUsageError⟩, [], s⟩

/-! ## A concrete backend, for instances at concrete inputs -/

/-- The state of the in-memory backend: the documents by key (latest first),
the directories made and the commits recorded. -/
structure MemStore where
  files : List (GoString × File)
  dirs : List GoString
  commits : List (GoString × Commit GoString)
  deriving DecidableEq, Repr

/-- Modelled from the spec: the package `repo` is not in the sources; this is
the in-memory backend of section 9 for the interface of section 6.  A read
returns the last document written at the key and fails with a does-not-exist
error when there is none; directory creation and writes succeed. -/
def memRepo : Repo MemStore GoString where
  GetFile s key :=
    match s.files.lookup key with
    | some f => .ok f
    | none => .error ⟨true, str "file does not exist"⟩
  HasFile s key := (s.files.lookup key).isSome
  MkdirPage s dir := ({ s with dirs := dir :: s.dirs }, none)
  SaveFile s key f cm :=
    ({ s with files := (key, f) :: s.files, commits := (key, cm) :: s.commits }, none)

/-- A backend whose every read fails with an error that is not a
does-not-exist error, whose writes fail, and that holds no document. -/
def brokenRepo : Repo MemStore GoString where
  GetFile _ _ := .error ⟨false, str "input/output error"⟩
  HasFile _ _ := false
  MkdirPage s _ := (s, some ⟨false, str "input/output error"⟩)
  SaveFile s _ _ _ := (s, some ⟨false, str "input/output error"⟩)

/-- The in-memory backend with one read-only key: a write at the key of
`locked` is refused with an error and changes nothing, every other call is
that of `memRepo`. -/
def guardedRepo : Repo MemStore GoString where
  GetFile := memRepo.GetFile
  HasFile := memRepo.HasFile
  MkdirPage := memRepo.MkdirPage
  SaveFile s key f cm :=
    if key = str "locked/_default.json" then (s, some ⟨false, str "read-only"⟩)
    else memRepo.SaveFile s key f cm

/-- Stand-ins for the two libraries and the two messages, for instances at
concrete inputs: the markdown stage wraps its input in a paragraph, the
sanitizer passes it through. -/
def sampleEnv : Env where
  blackfridayRun _ input := str "<p>" ++ input ++ str "</p>\n"
  sanitizeUGC output := output
  WrongAPIUsageError := str "Wrong API usage"
  UnauthorizedMessage := str "Unauthorized"

/-- The empty in-memory store. -/
def emptyStore : MemStore := ⟨[], [], []⟩

/-- An in-memory store holding an HTML document with a title at the key of
`a/b` and a markdown document with a title at the key of `md`. -/
def sampleStore : MemStore where
  files :=
    [(str "a/b/_default.json",
        ⟨str "text/html", str "<b>old</b>", [(str "title", str "Old")]⟩),
     (str "md/_default.json",
        ⟨str "text/markdown", str "# Hi", [(str "title", str "Greeting")]⟩)]
  dirs := [str "a/b/", str "md/"]
  commits := []

/-- A request context with the given `path` parameter, `format` query value,
bound body and client user. -/
def mkContext (path : GoString) (format : Option GoString) (body : Option apiRequest)
    (user : Option GoString) : Context GoString where
  Params := [(str "path", path)]
  QueryValues := match format with
    | some f => [(str "format", f)]
    | none => []
  BindJSON := body
  ClientUser := user

/-! ## Lemmas on strings -/

theorem str_slash : str "/" = [47] := by decide

theorem str_empty : str "" = [] := by decide

theorem str_sentinel :
    str "_default.json" = [95, 100, 101, 102, 97, 117, 108, 116, 46, 106, 115, 111, 110] := by
  decide

theorem str_slash_sentinel : str "/_default.json" = str "/" ++ str "_default.json" := by
  decide

/-- The last byte of a non-empty string, as Go's `path[len(path)-1:]`, is the
separator exactly when the string has the separator as a suffix. -/
theorem drop_last_eq_slash_iff (p : GoString) :
    p.drop (p.length - 1) = str "/" ↔ str "/" <:+ p := by
  constructor
  · intro h
    rw [← h]
    exact List.drop_suffix _ _
  · rintro ⟨q, rfl⟩
    rw [str_slash]
    simp

/-- The source function computes the three rules of the specification. -/
theorem normalizePath_eq_ref (p : GoString) : normalizePath p = normalizeRef p := by
  unfold normalizePath normalizeRef
  by_cases hp : p = []
  · subst hp
    simp [str_empty]
  · have hlen : p.length > 0 := List.length_pos.mpr hp
    simp only [hlen, if_true, hp, if_false, drop_last_eq_slash_iff, str_slash_sentinel,
      List.append_assoc]

theorem normalizePath_nil : normalizePath [] = str "_default.json" := by
  rw [normalizePath_eq_ref]; rfl

theorem normalizePath_of_slash (p : GoString) (h : str "/" <:+ p) :
    normalizePath p = p ++ str "_default.json" := by
  have hp : p ≠ [] := by
    rintro rfl
    rw [str_slash] at h
    simp at h
  rw [normalizePath_eq_ref]
  simp [normalizeRef, hp, h]

theorem normalizePath_of_not_slash (p : GoString) (hp : p ≠ []) (h : ¬ str "/" <:+ p) :
    normalizePath p = p ++ str "/" ++ str "_default.json" := by
  rw [normalizePath_eq_ref]
  simp [normalizeRef, hp, h]

/-- A normalized path never ends in the separator and is never empty. -/
theorem normalizePath_not_slash_suffix (p : GoString) :
    normalizePath p ≠ [] ∧ ¬ str "/" <:+ normalizePath p := by
  have hs : ∀ q : GoString, q ++ str "_default.json" ≠ [] ∧
      ¬ str "/" <:+ q ++ str "_default.json" := by
    intro q
    constructor
    · simp [str_sentinel]
    · rintro ⟨r, hr⟩
      have := congrArg List.getLast? hr
      simp [str_slash, str_sentinel] at this
  by_cases hp : p = []
  · subst hp
    rw [normalizePath_nil]
    simpa using hs []
  · by_cases h : str "/" <:+ p
    · rw [normalizePath_of_slash p h]; exact hs p
    · rw [normalizePath_of_not_slash p hp h, List.append_assoc]
      simpa [List.append_assoc] using hs (p ++ str "/")

/-! ## Lemmas on `filepath.Split` -/

theorem splitIndex_append_right (d w : GoString) (hw : ∀ b ∈ w, b ≠ 47) (n : Nat) :
    splitIndex (d ++ w) (d.length + n) = splitIndex (d ++ w) d.length := by
  induction n with
  | zero => rfl
  | succ n ih =>
    have hget : (d ++ w).get? (d.length + n) ≠ some 47 := by
      intro h
      rw [List.get?_eq_getElem?, List.getElem?_append_right (Nat.le_add_right _ _),
        Nat.add_sub_cancel_left] at h
      exact hw 47 (List.getElem?_mem h) rfl
    rw [← Nat.add_assoc, splitIndex, if_neg hget, ih]

theorem splitIndex_after_slash (q w : GoString) :
    splitIndex (q ++ str "/" ++ w) (q ++ str "/").length = (q ++ str "/").length := by
  have hlen : (q ++ str "/").length = q.length + 1 := by simp [str_slash]
  rw [hlen, splitIndex, if_pos]
  rw [List.get?_eq_getElem?, List.append_assoc,
    List.getElem?_append_right (Nat.le_refl _), Nat.sub_self, str_slash]
  simp

/-- For a directory part `d` that is empty or ends in the separator and a file
part `w` without separator, `filepath.Split` cuts `d ++ w` into `d` and
`w`. -/
theorem filepathSplit_append (d w : GoString) (hd : d = [] ∨ str "/" <:+ d)
    (hw : ∀ b ∈ w, b ≠ 47) : filepathSplit (d ++ w) = (d, w) := by
  have hi : splitIndex (d ++ w) (d ++ w).length = d.length := by
    rw [List.length_append, splitIndex_append_right d w hw]
    rcases hd with rfl | ⟨q, rfl⟩
    · rfl
    · exact splitIndex_after_slash q w
  unfold filepathSplit
  simp only [hi]
  simp

/-- The directory handed to `repo.MkdirPage`: the key without its sentinel
file name. -/
theorem filepathSplit_normalizePath (p : GoString) :
    (filepathSplit (normalizePath p)).1 ++ str "_default.json" = normalizePath p ∧
    (filepathSplit (normalizePath p)).2 = str "_default.json" := by
  have hw : ∀ b ∈ str "_default.json", b ≠ 47 := by decide
  have key : ∀ d : GoString, (d = [] ∨ str "/" <:+ d) →
      normalizePath p = d ++ str "_default.json" →
      (filepathSplit (normalizePath p)).1 ++ str "_default.json" = normalizePath p ∧
      (filepathSplit (normalizePath p)).2 = str "_default.json" := by
    intro d hd hk
    rw [hk, filepathSplit_append d _ hd hw]
    exact ⟨rfl, rfl⟩
  by_cases hp : p = []
  · subst hp
    exact key [] (Or.inl rfl) (by rw [normalizePath_nil]; rfl)
  · by_cases h : str "/" <:+ p
    · exact key p (Or.inr h) (normalizePath_of_slash p h)
    · exact key (p ++ str "/") (Or.inr (List.suffix_append _ _))
        (normalizePath_of_not_slash p hp h)

/-! ## Lemmas on the handlers -/

/-- Reading a stored document: the response of `GetPageHandler` when
`repo.GetFile` returns a file. -/
theorem GetPageHandler_of_file {σ User : Type} (env : Env) (repo : Repo σ User)
    (c : Context User) (s : σ) (file : File)
    (h : repo.GetFile s (normalizePath (c.Param (str "path"))) = .ok file) :
    GetPageHandler env repo c s =
      if c.Query (str "format") = str "no-render" then
        ⟨⟨StatusOK, .page ⟨lookupOrEmpty file.Metadata (str "title"), file.Content⟩⟩,
          [.GetFile (normalizePath (c.Param (str "path")))], s⟩
      else if file.ContentType = str "text/markdown" then
        ⟨⟨StatusOK, .page ⟨lookupOrEmpty file.Metadata (str "title"),
            renderPage env file.Content⟩⟩,
          [.GetFile (normalizePath (c.Param (str "path")))], s⟩
      else
        ⟨⟨StatusMethodNotAllowed, .ApiResponse (str "Content-type is not allowed here")⟩,
          [.GetFile (normalizePath (c.Param (str "path")))], s⟩ := by
  simp only [GetPageHandler, h]

/-- Reading a failed lookup: the response of `GetPageHandler` when
`repo.GetFile` returns an error. -/
theorem GetPageHandler_of_error {σ User : Type} (env : Env) (repo : Repo σ User)
    (c : Context User) (s : σ) (err : GoError)
    (h : repo.GetFile s (normalizePath (c.Param (str "path"))) = .error err) :
    GetPageHandler env repo c s =
      if err.IsNotExist then
        ⟨⟨StatusNotFound, .ApiResponse (str "Not found")⟩,
          [.GetFile (normalizePath (c.Param (str "path")))], s⟩
      else
        ⟨⟨StatusInternalServerError, .ApiResponse err.Error⟩,
          [.GetFile (normalizePath (c.Param (str "path")))], s⟩ := by
  simp only [GetPageHandler, h]

/-- Reading a document that a write handler has just stored: a markdown file
without metadata. -/
theorem GetPageHandler_of_written {σ User : Type} (env : Env) (repo : Repo σ User)
    (c : Context User) (s : σ) (content : GoString)
    (h : repo.GetFile s (normalizePath (c.Param (str "path"))) =
      .ok ⟨str "text/markdown", content, []⟩) :
    GetPageHandler env repo c s =
      ⟨⟨StatusOK, .page ⟨[],
          if c.Query (str "format") = str "no-render" then content
          else renderPage env content⟩⟩,
        [.GetFile (normalizePath (c.Param (str "path")))], s⟩ := by
  rw [GetPageHandler_of_file env repo c s _ h]
  by_cases hf : c.Query (str "format") = str "no-render"
  · simp [hf, lookupOrEmpty]
  · simp [hf, lookupOrEmpty]

/-- The run of `PutPageHandler` for an authenticated request with a
well-formed body on an existing document. -/
theorem PutPageHandler_of_existing {σ User : Type} (env : Env) (repo : Repo σ User)
    (c : Context User) (s : σ) (u : User) (data : apiRequest) (d : File)
    (hu : c.ClientUser = some u) (hb : c.BindJSON = some data)
    (hd : repo.GetFile s (normalizePath (c.Param (str "path"))) = .ok d) :
    (PutPageHandler env repo c s).calls =
      [.GetFile (normalizePath (c.Param (str "path"))),
       .SaveFile (normalizePath (c.Param (str "path")))
         ⟨str "text/markdown", data.Content, []⟩
         ⟨u, str "Updated page: " ++ normalizePath (c.Param (str "path"))⟩] ∧
    (PutPageHandler env repo c s).store =
      (repo.SaveFile s (normalizePath (c.Param (str "path")))
        ⟨str "text/markdown", data.Content, []⟩
        ⟨u, str "Updated page: " ++ normalizePath (c.Param (str "path"))⟩).1 ∧
    (PutPageHandler env repo c s).response =
      match (repo.SaveFile s (normalizePath (c.Param (str "path")))
        ⟨str "text/markdown", data.Content, []⟩
        ⟨u, str "Updated page: " ++ normalizePath (c.Param (str "path"))⟩).2 with
      | some err => ⟨StatusInternalServerError, .ApiResponse err.Error⟩
      | none => ⟨StatusOK, .ApiResponse (str "Updated page.")⟩ := by
  simp only [PutPageHandler, hu, hb, hd]
  rcases repo.SaveFile s (normalizePath (c.Param (str "path")))
    ⟨str "text/markdown", data.Content, []⟩
    ⟨u, str "Updated page: " ++ normalizePath (c.Param (str "path"))⟩ with ⟨s', _ | e⟩
  · exact ⟨rfl, rfl, rfl⟩
  · exact ⟨rfl, rfl, rfl⟩

/-- The run of `PostPageHandler` for an authenticated request with a
well-formed body on a key without document, when the directory can be made. -/
theorem PostPageHandler_of_new {σ User : Type} (env : Env) (repo : Repo σ User)
    (c : Context User) (s : σ) (u : User) (data : apiRequest)
    (hu : c.ClientUser = some u) (hb : c.BindJSON = some data)
    (hnew : repo.HasFile s (normalizePath (c.Param (str "path"))) = false)
    (hmk : (repo.MkdirPage s (filepathSplit (normalizePath (c.Param (str "path")))).1).2
      = none) :
    (PostPageHandler env repo c s).calls =
      [.HasFile (normalizePath (c.Param (str "path"))),
       .MkdirPage (filepathSplit (normalizePath (c.Param (str "path")))).1,
       .SaveFile (normalizePath (c.Param (str "path")))
         ⟨str "text/markdown", data.Content, []⟩
         ⟨u, str "Created new page: " ++ normalizePath (c.Param (str "path"))⟩] ∧
    (PostPageHandler env repo c s).store =
      (repo.SaveFile
        (repo.MkdirPage s (filepathSplit (normalizePath (c.Param (str "path")))).1).1
        (normalizePath (c.Param (str "path")))
        ⟨str "text/markdown", data.Content, []⟩
        ⟨u, str "Created new page: " ++ normalizePath (c.Param (str "path"))⟩).1 ∧
    (PostPageHandler env repo c s).response =
      match (repo.SaveFile
        (repo.MkdirPage s (filepathSplit (normalizePath (c.Param (str "path")))).1).1
        (normalizePath (c.Param (str "path")))
        ⟨str "text/markdown", data.Content, []⟩
        ⟨u, str "Created new page: " ++ normalizePath (c.Param (str "path"))⟩).2 with
      | some err => ⟨StatusInternalServerError, .ApiResponse err.Error⟩
      | none => ⟨StatusOK, .ApiResponse (str "Created page.")⟩ := by
  simp only [PostPageHandler, hu, hb, hnew]
  rcases hm : repo.MkdirPage s (filepathSplit (normalizePath (c.Param (str "path")))).1
    with ⟨s₁, _ | e⟩
  · simp only []
    rcases repo.SaveFile s₁ (normalizePath (c.Param (str "path")))
      ⟨str "text/markdown", data.Content, []⟩
      ⟨u, str "Created new page: " ++ normalizePath (c.Param (str "path"))⟩ with ⟨s₂, _ | e⟩
    · exact ⟨rfl, rfl, rfl⟩
    · exact ⟨rfl, rfl, rfl⟩
  · rw [hm] at hmk
    cases hmk

/-- After the existence check and a well-formed body, `PostPageHandler`
answers 200 only when both `repo.MkdirPage` and `repo.SaveFile` returned no
error. -/
theorem PostPageHandler_ok {σ User : Type} (env : Env) (repo : Repo σ User)
    (c : Context User) (s : σ) (u : User) (data : apiRequest)
    (hu : c.ClientUser = some u) (hb : c.BindJSON = some data)
    (hnew : repo.HasFile s (normalizePath (c.Param (str "path"))) = false)
    (hok : (PostPageHandler env repo c s).response.Status = StatusOK) :
    (repo.MkdirPage s (filepathSplit (normalizePath (c.Param (str "path")))).1).2
      = none ∧
    (repo.SaveFile
      (repo.MkdirPage s (filepathSplit (normalizePath (c.Param (str "path")))).1).1
      (normalizePath (c.Param (str "path")))
      ⟨str "text/markdown", data.Content, []⟩
      ⟨u, str "Created new page: " ++ normalizePath (c.Param (str "path"))⟩).2 = none := by
  simp only [PostPageHandler, hu, hb, hnew] at hok
  rcases hm : repo.MkdirPage s (filepathSplit (normalizePath (c.Param (str "path")))).1
    with ⟨s₁, _ | e⟩
  · rw [hm] at hok
    simp only [] at hok
    refine ⟨rfl, ?_⟩
    rcases hs : repo.SaveFile s₁ (normalizePath (c.Param (str "path")))
      ⟨str "text/markdown", data.Content, []⟩
      ⟨u, str "Created new page: " ++ normalizePath (c.Param (str "path"))⟩
      with ⟨s₂, _ | e⟩
    · rfl
    · rw [hs] at hok
      simp [StatusOK, StatusInternalServerError] at hok
  · rw [hm] at hok
    simp [StatusOK, StatusInternalServerError] at hok

/-! ## The path normalizer -/

/-- C1, counterexample: normalizing the key of the raw path `a` a second time
changes it, so `normalizePath` is not idempotent. -/
theorem normalizePath_not_idempotent :
    normalizePath (str "a") = str "a/_default.json" ∧
    normalizePath (normalizePath (str "a")) = str "a/_default.json/_default.json" ∧
    normalizePath (normalizePath (str "a")) ≠ normalizePath (str "a") := by
  decide

/-- C1, amended: normalizing an already normalized key appends a separator
and the sentinel once more, for every raw path; the result always differs
from the key. -/
theorem normalizePath_twice (p : GoString) :
    normalizePath (normalizePath p) = normalizePath p ++ str "/" ++ str "_default.json" ∧
    normalizePath (normalizePath p) ≠ normalizePath p := by
  obtain ⟨hne, hns⟩ := normalizePath_not_slash_suffix p
  have h := normalizePath_of_not_slash (normalizePath p) hne hns
  refine ⟨h, ?_⟩
  rw [h]
  intro heq
  have := congrArg List.length heq
  simp [str_slash, str_sentinel] at this

/-- C2, counterexample: the key of the raw path `/a` ends in the sentinel but
begins with the separator. -/
theorem normalizePath_leading_slash_kept :
    normalizePath (str "/a") = str "/a/_default.json" ∧
    ¬ (str "_default.json" <:+ normalizePath (str "/a") ∧
        ¬ str "/" <+: normalizePath (str "/a")) := by
  decide

/-- C2, amended: every key ends in the sentinel file name, and it begins with
the separator exactly when the raw path does. -/
theorem normalizePath_sentinel_suffix (p : GoString) :
    str "_default.json" <:+ normalizePath p ∧
    (str "/" <+: normalizePath p ↔ str "/" <+: p) := by
  by_cases hp : p = []
  · subst hp
    rw [normalizePath_nil]
    decide
  · have key : ∀ t : GoString, normalizePath p = p ++ t →
        str "_default.json" <:+ t →
        str "_default.json" <:+ normalizePath p ∧
          (str "/" <+: normalizePath p ↔ str "/" <+: p) := by
      intro t ht hsuf
      rw [ht]
      refine ⟨hsuf.trans (List.suffix_append p t), ?_⟩
      obtain ⟨b, q, rfl⟩ := List.exists_cons_of_ne_nil hp
      simp [str_slash, List.cons_prefix_cons]
    by_cases h : str "/" <:+ p
    · exact key _ (normalizePath_of_slash p h) (List.suffix_refl _)
    · refine key (str "/" ++ str "_default.json") ?_ (List.suffix_append _ _)
      rw [normalizePath_of_not_slash p hp h, List.append_assoc]

/-- C3: `normalizePath` is the three-rule reference function: the empty path
gives the sentinel, a path ending in the separator gets the sentinel
appended, any other path gets the separator and the sentinel appended; `a/`
and `a` both give `a/_default.json`, and the raw path is a prefix of the
key. -/
theorem normalizePath_three_rules (p : GoString) :
    normalizePath p = normalizeRef p ∧
    normalizePath (str "") = str "_default.json" ∧
    (str "/" <:+ p → normalizePath p = p ++ str "_default.json") ∧
    (p ≠ str "" → ¬ str "/" <:+ p → normalizePath p = p ++ str "/_default.json") ∧
    normalizePath (str "a/") = str "a/_default.json" ∧
    normalizePath (str "a") = str "a/_default.json" ∧
    p <+: normalizePath p := by
  refine ⟨normalizePath_eq_ref p, by decide, normalizePath_of_slash p, ?_, by decide,
    by decide, ?_⟩
  · intro hp h
    rw [str_empty] at hp
    rw [normalizePath_of_not_slash p hp h, str_slash_sentinel, List.append_assoc]
  · by_cases hp : p = []
    · subst hp
      exact List.nil_prefix
    · by_cases h : str "/" <:+ p
      · rw [normalizePath_of_slash p h]
        exact List.prefix_append _ _
      · rw [normalizePath_of_not_slash p hp h, List.append_assoc]
        exact List.prefix_append _ _

/-- C3, at the raw paths `wiki/` and `wiki/Home`: the second and the third
rule apply. -/
theorem normalizePath_three_rules_witness :
    normalizePath (str "wiki/") = str "wiki/" ++ str "_default.json" ∧
    normalizePath (str "wiki/Home") = str "wiki/Home" ++ str "/_default.json" :=
  ⟨(normalizePath_three_rules (str "wiki/")).2.2.1 (by decide),
   (normalizePath_three_rules (str "wiki/Home")).2.2.2.1 (by decide) (by decide)⟩

/-- C4: a non-empty raw path that does not end in the separator has the same
key as the path with a separator appended, and that key is the path, one
separator and the sentinel once. -/
theorem normalizePath_trailing_slash (p : GoString) (hp : p ≠ str "")
    (h : ¬ str "/" <:+ p) :
    normalizePath p = normalizePath (p ++ str "/") ∧
    normalizePath p = p ++ str "/" ++ str "_default.json" ∧
    normalizePath (p ++ str "/") = p ++ str "/" ++ str "_default.json" := by
  rw [str_empty] at hp
  have h1 := normalizePath_of_not_slash p hp h
  have h2 := normalizePath_of_slash (p ++ str "/") (List.suffix_append _ _)
  exact ⟨h1.trans h2.symm, h1, h2⟩

/-- C4, at the raw path `a/b`. -/
theorem normalizePath_trailing_slash_witness :
    str "a/b" ≠ str "" ∧ ¬ str "/" <:+ str "a/b" ∧
    normalizePath (str "a/b") = normalizePath (str "a/b" ++ str "/") ∧
    normalizePath (str "a/b") = str "a/b" ++ str "/" ++ str "_default.json" ∧
    normalizePath (str "a/b" ++ str "/") = str "a/b" ++ str "/" ++ str "_default.json" :=
  ⟨by decide, by decide, normalizePath_trailing_slash (str "a/b") (by decide) (by decide)⟩

/-! ## The page handlers -/

/-- C5: without an authenticated actor `PutPageHandler` and `PostPageHandler`
answer with the Unauthorized response, make no storage call and leave the
storage state as it was, whatever the path, the body and the storage. -/
theorem unauthorized_before_storage {σ User : Type} (env : Env) (repo : Repo σ User)
    (c : Context User) (s : σ) (hu : c.ClientUser = none) :
    PutPageHandler env repo c s = ⟨helperUnauthorized env, [], s⟩ ∧
    PostPageHandler env repo c s = ⟨helperUnauthorized env, [], s⟩ ∧
    (helperUnauthorized env).Status = StatusUnauthorized := by
  refine ⟨?_, ?_, rfl⟩
  · simp only [PutPageHandler, hu]
  · simp only [PostPageHandler, hu]

/-- C5, at a request without user for the existing page `a/b`. -/
theorem unauthorized_before_storage_witness :
    (mkContext (str "a/b") none (some ⟨[], str "text"⟩) none).ClientUser = none ∧
    PutPageHandler sampleEnv memRepo
        (mkContext (str "a/b") none (some ⟨[], str "text"⟩) none) sampleStore =
      ⟨⟨401, .ApiResponse (str "Unauthorized")⟩, [], sampleStore⟩ ∧
    PostPageHandler sampleEnv memRepo
        (mkContext (str "a/b") none (some ⟨[], str "text"⟩) none) sampleStore =
      ⟨⟨401, .ApiResponse (str "Unauthorized")⟩, [], sampleStore⟩ :=
  ⟨rfl,
   (unauthorized_before_storage sampleEnv memRepo
      (mkContext (str "a/b") none (some ⟨[], str "text"⟩) none) sampleStore rfl).1,
   (unauthorized_before_storage sampleEnv memRepo
      (mkContext (str "a/b") none (some ⟨[], str "text"⟩) none) sampleStore rfl).2.1⟩

/-- C6: `GetPageHandler` follows the read decision table.  It makes one
storage call, the read of the key of the path, and leaves the storage state
unchanged.  A does-not-exist error gives NotFound, any other error
InternalError; a document read with `format=no-render` is returned with its
metadata title and its raw content, whatever its content type; otherwise a
markdown document is returned rendered, and any other content type gives
MethodNotAllowed. -/
theorem GetPageHandler_decision_table {σ User : Type} (env : Env) (repo : Repo σ User)
    (c : Context User) (s : σ) :
    (GetPageHandler env repo c s).store = s ∧
    (GetPageHandler env repo c s).calls =
      [.GetFile (normalizePath (c.Param (str "path")))] ∧
    (∀ err, repo.GetFile s (normalizePath (c.Param (str "path"))) = .error err →
      err.IsNotExist = true →
      (GetPageHandler env repo c s).response =
        ⟨StatusNotFound, .ApiResponse (str "Not found")⟩) ∧
    (∀ err, repo.GetFile s (normalizePath (c.Param (str "path"))) = .error err →
      err.IsNotExist = false →
      (GetPageHandler env repo c s).response =
        ⟨StatusInternalServerError, .ApiResponse err.Error⟩) ∧
    (∀ file, repo.GetFile s (normalizePath (c.Param (str "path"))) = .ok file →
      c.Query (str "format") = str "no-render" →
      (GetPageHandler env repo c s).response =
        ⟨StatusOK, .page ⟨lookupOrEmpty file.Metadata (str "title"), file.Content⟩⟩) ∧
    (∀ file, repo.GetFile s (normalizePath (c.Param (str "path"))) = .ok file →
      c.Query (str "format") ≠ str "no-render" →
      file.ContentType = str "text/markdown" →
      (GetPageHandler env repo c s).response =
        ⟨StatusOK, .page ⟨lookupOrEmpty file.Metadata (str "title"),
          renderPage env file.Content⟩⟩) ∧
    (∀ file, repo.GetFile s (normalizePath (c.Param (str "path"))) = .ok file →
      c.Query (str "format") ≠ str "no-render" →
      file.ContentType ≠ str "text/markdown" →
      (GetPageHandler env repo c s).response =
        ⟨StatusMethodNotAllowed, .ApiResponse (str "Content-type is not allowed here")⟩) := by
  refine ⟨?_, ?_, ?_, ?_, ?_, ?_, ?_⟩
  · rcases h : repo.GetFile s (normalizePath (c.Param (str "path"))) with err | file
    · rw [GetPageHandler_of_error env repo c s err h]; split <;> rfl
    · rw [GetPageHandler_of_file env repo c s file h]; split_ifs <;> rfl
  · rcases h : repo.GetFile s (normalizePath (c.Param (str "path"))) with err | file
    · rw [GetPageHandler_of_error env repo c s err h]; split <;> rfl
    · rw [GetPageHandler_of_file env repo c s file h]; split_ifs <;> rfl
  · intro err h hne
    rw [GetPageHandler_of_error env repo c s err h, if_pos hne]
  · intro err h hne
    rw [GetPageHandler_of_error env repo c s err h, hne]
    rfl
  · intro file h hf
    rw [GetPageHandler_of_file env repo c s file h, if_pos hf]
  · intro file h hf hct
    rw [GetPageHandler_of_file env repo c s file h, if_neg hf, if_pos hct]
  · intro file h hf hct
    rw [GetPageHandler_of_file env repo c s file h, if_neg hf, if_neg hct]

/-- C6, at concrete requests: a missing page, a failing backend, the raw read
of an HTML document, the rendered read of a markdown document and the
rendered read of an HTML document. -/
theorem GetPageHandler_decision_table_witness :
    (GetPageHandler sampleEnv memRepo (mkContext (str "none") none none none)
        sampleStore).response = ⟨404, .ApiResponse (str "Not found")⟩ ∧
    (GetPageHandler sampleEnv brokenRepo (mkContext (str "a/b") none none none)
        sampleStore).response = ⟨500, .ApiResponse (str "input/output error")⟩ ∧
    (GetPageHandler sampleEnv memRepo
        (mkContext (str "a/b") (some (str "no-render")) none none)
        sampleStore).response = ⟨200, .page ⟨str "Old", str "<b>old</b>"⟩⟩ ∧
    (GetPageHandler sampleEnv memRepo (mkContext (str "md/") none none none)
        sampleStore).response = ⟨200, .page ⟨str "Greeting", str "<p># Hi</p>\n"⟩⟩ ∧
    (GetPageHandler sampleEnv memRepo (mkContext (str "a/b") none none none)
        sampleStore).response =
      ⟨405, .ApiResponse (str "Content-type is not allowed here")⟩ :=
  ⟨(GetPageHandler_decision_table sampleEnv memRepo
      (mkContext (str "none") none none none) sampleStore).2.2.1 _ rfl rfl,
   (GetPageHandler_decision_table sampleEnv brokenRepo
      (mkContext (str "a/b") none none none) sampleStore).2.2.2.1 _ rfl rfl,
   (GetPageHandler_decision_table sampleEnv memRepo
      (mkContext (str "a/b") (some (str "no-render")) none none)
      sampleStore).2.2.2.2.1 _ rfl rfl,
   (GetPageHandler_decision_table sampleEnv memRepo
      (mkContext (str "md/") none none none) sampleStore).2.2.2.2.2.1 _ rfl
      (by decide) rfl,
   (GetPageHandler_decision_table sampleEnv memRepo
      (mkContext (str "a/b") none none none) sampleStore).2.2.2.2.2.2 _ rfl
      (by decide) (by decide)⟩

/-- C7: for an authenticated request, whatever its body, `PostPageHandler` on
a key that `repo.HasFile` reports answers MethodNotAllowed, and
`PutPageHandler` on a key whose read fails with a does-not-exist error answers
NotFound; each makes only its existence query, neither a write nor a
directory creation, and leaves the storage state unchanged. -/
theorem write_state_guards {σ User : Type} (env : Env) (repo : Repo σ User)
    (c : Context User) (s : σ) (u : User) (hu : c.ClientUser = some u) :
    (repo.HasFile s (normalizePath (c.Param (str "path"))) = true →
      PostPageHandler env repo c s =
        ⟨⟨StatusMethodNotAllowed,
            .ApiResponse (str "Page already exists, use PUT to edit.")⟩,
          [.HasFile (normalizePath (c.Param (str "path")))], s⟩) ∧
    (∀ err, repo.GetFile s (normalizePath (c.Param (str "path"))) = .error err →
      err.IsNotExist = true →
      PutPageHandler env repo c s =
        ⟨⟨StatusNotFound, .ApiResponse (str "Not found, use POST to create.")⟩,
          [.GetFile (normalizePath (c.Param (str "path")))], s⟩) := by
  constructor
  · intro h
    simp only [PostPageHandler, hu, h, if_true]
  · intro err h hne
    simp only [PutPageHandler, hu, h, hne, if_true]

/-- C7, at a POST on the existing page `a/b` with a malformed body and a PUT
on the missing page `new` with a well-formed body. -/
theorem write_state_guards_witness :
    PostPageHandler sampleEnv memRepo
        (mkContext (str "a/b") none none (some (str "alice"))) sampleStore =
      ⟨⟨405, .ApiResponse (str "Page already exists, use PUT to edit.")⟩,
        [.HasFile (str "a/b/_default.json")], sampleStore⟩ ∧
    PutPageHandler sampleEnv memRepo
        (mkContext (str "new") none (some ⟨[], str "text"⟩) (some (str "alice")))
        sampleStore =
      ⟨⟨404, .ApiResponse (str "Not found, use POST to create.")⟩,
        [.GetFile (str "new/_default.json")], sampleStore⟩ :=
  ⟨(write_state_guards sampleEnv memRepo
      (mkContext (str "a/b") none none (some (str "alice"))) sampleStore
      (str "alice") rfl).1 rfl,
   (write_state_guards sampleEnv memRepo
      (mkContext (str "new") none (some ⟨[], str "text"⟩) (some (str "alice")))
      sampleStore (str "alice") rfl).2 _ rfl rfl⟩

/-- C8: create, then read.  Over a backend whose directory creation and
writes succeed and whose read returns the document last written at a key: for
an authenticated actor `u`, a path whose key `k` holds no document and a
well-formed body with content `data.Content`, `PostPageHandler` queries the
key, makes the directory of `k` (the key without its sentinel file name),
writes at `k` a markdown document with that content under the commit of
author `u` and message `Created new page: k`, and confirms; `GetPageHandler`
on the same path without `no-render` then returns the rendered content. -/
theorem post_then_get {σ User : Type} (env : Env) (repo : Repo σ User)
    (c cget : Context User) (s : σ) (u : User) (data : apiRequest)
    (hu : c.ClientUser = some u) (hb : c.BindJSON = some data)
    (hnew : repo.HasFile s (normalizePath (c.Param (str "path"))) = false)
    (hmk : ∀ t d, (repo.MkdirPage t d).2 = none)
    (hsave : ∀ t k f cm, (repo.SaveFile t k f cm).2 = none)
    (hread : ∀ t k f cm, repo.GetFile (repo.SaveFile t k f cm).1 k = .ok f)
    (hpath : cget.Param (str "path") = c.Param (str "path"))
    (hfmt : cget.Query (str "format") ≠ str "no-render") :
    (filepathSplit (normalizePath (c.Param (str "path")))).1 ++ str "_default.json" =
      normalizePath (c.Param (str "path")) ∧
    (PostPageHandler env repo c s).calls =
      [.HasFile (normalizePath (c.Param (str "path"))),
       .MkdirPage (filepathSplit (normalizePath (c.Param (str "path")))).1,
       .SaveFile (normalizePath (c.Param (str "path")))
         ⟨str "text/markdown", data.Content, []⟩
         ⟨u, str "Created new page: " ++ normalizePath (c.Param (str "path"))⟩] ∧
    (PostPageHandler env repo c s).store =
      (repo.SaveFile
        (repo.MkdirPage s (filepathSplit (normalizePath (c.Param (str "path")))).1).1
        (normalizePath (c.Param (str "path")))
        ⟨str "text/markdown", data.Content, []⟩
        ⟨u, str "Created new page: " ++ normalizePath (c.Param (str "path"))⟩).1 ∧
    (PostPageHandler env repo c s).response =
      ⟨StatusOK, .ApiResponse (str "Created page.")⟩ ∧
    GetPageHandler env repo cget (PostPageHandler env repo c s).store =
      ⟨⟨StatusOK, .page ⟨[], renderPage env data.Content⟩⟩,
        [.GetFile (normalizePath (c.Param (str "path")))],
        (PostPageHandler env repo c s).store⟩ := by
  obtain ⟨hcalls, hstore, hresp⟩ :=
    PostPageHandler_of_new env repo c s u data hu hb hnew (hmk _ _)
  refine ⟨(filepathSplit_normalizePath _).1, hcalls, hstore, ?_, ?_⟩
  · rw [hresp, hsave]
  · have hget : repo.GetFile (PostPageHandler env repo c s).store
        (normalizePath (cget.Param (str "path"))) =
        .ok ⟨str "text/markdown", data.Content, []⟩ := by
      rw [hstore, hpath, hread]
    rw [GetPageHandler_of_written env repo cget _ data.Content hget, if_neg hfmt, hpath]

/-- C8, at the path `a/b` with content `# Hi`, user `alice` and the empty
in-memory store: the key is `a/b/_default.json`, the directory `a/b/`, the
commit message `Created new page: a/b/_default.json`. -/
theorem post_then_get_witness :
    (PostPageHandler sampleEnv memRepo
        (mkContext (str "a/b") none (some ⟨[], str "# Hi"⟩) (some (str "alice")))
        emptyStore).calls =
      [.HasFile (str "a/b/_default.json"),
       .MkdirPage (str "a/b/"),
       .SaveFile (str "a/b/_default.json")
         ⟨str "text/markdown", str "# Hi", []⟩
         ⟨str "alice", str "Created new page: a/b/_default.json"⟩] ∧
    (PostPageHandler sampleEnv memRepo
        (mkContext (str "a/b") none (some ⟨[], str "# Hi"⟩) (some (str "alice")))
        emptyStore).response = ⟨200, .ApiResponse (str "Created page.")⟩ ∧
    (GetPageHandler sampleEnv memRepo (mkContext (str "a/b") none none none)
        (PostPageHandler sampleEnv memRepo
          (mkContext (str "a/b") none (some ⟨[], str "# Hi"⟩) (some (str "alice")))
          emptyStore).store).response =
      ⟨200, .page ⟨[], renderPage sampleEnv (str "# Hi")⟩⟩ :=
  have h := post_then_get sampleEnv memRepo
    (mkContext (str "a/b") none (some ⟨[], str "# Hi"⟩) (some (str "alice")))
    (mkContext (str "a/b") none none none) emptyStore (str "alice") ⟨[], str "# Hi"⟩
    rfl rfl rfl (fun _ _ => rfl) (fun _ _ _ _ => rfl)
    (fun t k f cm => by simp [memRepo]) rfl (by decide)
  ⟨h.2.1, h.2.2.2.1, congrArg Outcome.response h.2.2.2.2⟩

/-- C9: `PostPreviewHandler` makes no storage call and leaves the storage
state unchanged for every request, user or not, and every storage; a
well-formed body gives success with the rendered content, a malformed one
BadRequest, and only a malformed one.  The content is `renderPage` of the
body's content, which is what `GetPageHandler` returns for a stored markdown
document with that content. -/
theorem preview_pure {σ User : Type} (env : Env) (repo : Repo σ User)
    (c : Context User) (s : σ) :
    (PostPreviewHandler env repo c s).calls = [] ∧
    (PostPreviewHandler env repo c s).store = s ∧
    (∀ data, c.BindJSON = some data →
      (PostPreviewHandler env repo c s).response =
        ⟨StatusOK, .page ⟨[], renderPage env data.Content⟩⟩) ∧
    (c.BindJSON = none →
      (PostPreviewHandler env repo c s).response =
        ⟨StatusBadRequest, .ApiResponse env.WrongAPIUsageError⟩) ∧
    ((PostPreviewHandler env repo c s).response.Status = StatusBadRequest ↔
      c.BindJSON = none) ∧
    (∀ data file (cget : Context User) (t : σ), c.BindJSON = some data →
      repo.GetFile t (normalizePath (cget.Param (str "path"))) = .ok file →
      file.ContentType = str "text/markdown" → file.Content = data.Content →
      cget.Query (str "format") ≠ str "no-render" →
      (GetPageHandler env repo cget t).response =
        ⟨StatusOK, .page ⟨lookupOrEmpty file.Metadata (str "title"),
          renderPage env data.Content⟩⟩) := by
  refine ⟨?_, ?_, ?_, ?_, ?_, ?_⟩
  · unfold PostPreviewHandler; split <;> rfl
  · unfold PostPreviewHandler; split <;> rfl
  · intro data h
    simp only [PostPreviewHandler, h]
  · intro h
    simp only [PostPreviewHandler, h]
  · rcases h : c.BindJSON with _ | data
    · simp only [PostPreviewHandler, h]
    · simp only [PostPreviewHandler, h]
      simp [StatusOK, StatusBadRequest]
  · intro data file cget t _ hfile hct hcontent hfmt
    rw [GetPageHandler_of_file env repo cget t file hfile, if_neg hfmt, if_pos hct, hcontent]

/-- C9, at a preview of `# Hi` on the empty store, without user, and a
preview with a malformed body. -/
theorem preview_pure_witness :
    (PostPreviewHandler sampleEnv memRepo
        (mkContext (str "nowhere") none (some ⟨[], str "# Hi"⟩) none)
        emptyStore).calls = [] ∧
    (PostPreviewHandler sampleEnv memRepo
        (mkContext (str "nowhere") none (some ⟨[], str "# Hi"⟩) none)
        emptyStore).response = ⟨200, .page ⟨[], str "<p># Hi</p>\n"⟩⟩ ∧
    (PostPreviewHandler sampleEnv memRepo
        (mkContext (str "nowhere") none none none) emptyStore).response =
      ⟨400, .ApiResponse (str "Wrong API usage")⟩ ∧
    (GetPageHandler sampleEnv memRepo (mkContext (str "md") none none none)
        sampleStore).response = ⟨200, .page ⟨str "Greeting", str "<p># Hi</p>\n"⟩⟩ :=
  ⟨(preview_pure sampleEnv memRepo
      (mkContext (str "nowhere") none (some ⟨[], str "# Hi"⟩) none) emptyStore).1,
   (preview_pure sampleEnv memRepo
      (mkContext (str "nowhere") none (some ⟨[], str "# Hi"⟩) none)
      emptyStore).2.2.1 _ rfl,
   (preview_pure sampleEnv memRepo
      (mkContext (str "nowhere") none none none) emptyStore).2.2.2.1 rfl,
   (preview_pure sampleEnv memRepo
      (mkContext (str "nowhere") none (some ⟨[], str "# Hi"⟩) none)
      emptyStore).2.2.2.2.2 ⟨[], str "# Hi"⟩ _ (mkContext (str "md") none none none)
      sampleStore rfl rfl rfl rfl (by decide)⟩

/-- C10: a successful `PutPageHandler` replaces the stored document.  For an
authenticated actor `u`, a well-formed body and a key `k` holding any
document `d`, on every backend: the handler reads `k` and then writes at `k`
a markdown document with the body's content and no metadata, whatever `d`
and the body's `path` field are, under the commit of author `u` and message
`Updated page: k`; it answers 200 exactly when that write returns no error.
After a PUT answered 200, and after a POST answered 200, on a backend whose
read returns the document of a write that returned no error,
`GetPageHandler` on the same path returns an empty title. -/
theorem put_replaces_document {σ User : Type} (env : Env) (repo : Repo σ User)
    (c : Context User) (s : σ) (u : User) (data : apiRequest)
    (hu : c.ClientUser = some u) (hb : c.BindJSON = some data) :
    (∀ d, repo.GetFile s (normalizePath (c.Param (str "path"))) = .ok d →
      (PutPageHandler env repo c s).calls =
        [.GetFile (normalizePath (c.Param (str "path"))),
         .SaveFile (normalizePath (c.Param (str "path")))
           ⟨str "text/markdown", data.Content, []⟩
           ⟨u, str "Updated page: " ++ normalizePath (c.Param (str "path"))⟩] ∧
      (PutPageHandler env repo c s).store =
        (repo.SaveFile s (normalizePath (c.Param (str "path")))
          ⟨str "text/markdown", data.Content, []⟩
          ⟨u, str "Updated page: " ++ normalizePath (c.Param (str "path"))⟩).1 ∧
      ((PutPageHandler env repo c s).response.Status = StatusOK ↔
        (repo.SaveFile s (normalizePath (c.Param (str "path")))
          ⟨str "text/markdown", data.Content, []⟩
          ⟨u, str "Updated page: " ++ normalizePath (c.Param (str "path"))⟩).2 = none) ∧
      ((repo.SaveFile s (normalizePath (c.Param (str "path")))
          ⟨str "text/markdown", data.Content, []⟩
          ⟨u, str "Updated page: " ++ normalizePath (c.Param (str "path"))⟩).2 = none →
        (PutPageHandler env repo c s).response =
          ⟨StatusOK, .ApiResponse (str "Updated page.")⟩) ∧
      (∀ cget : Context User, cget.Param (str "path") = c.Param (str "path") →
        (PutPageHandler env repo c s).response.Status = StatusOK →
        (∀ t k f cm, (repo.SaveFile t k f cm).2 = none →
          repo.GetFile (repo.SaveFile t k f cm).1 k = .ok f) →
        (GetPageHandler env repo cget (PutPageHandler env repo c s).store).response =
          ⟨StatusOK, .page ⟨[],
            if cget.Query (str "format") = str "no-render" then data.Content
            else renderPage env data.Content⟩⟩)) ∧
    (repo.HasFile s (normalizePath (c.Param (str "path"))) = false →
      ∀ cget : Context User, cget.Param (str "path") = c.Param (str "path") →
        (PostPageHandler env repo c s).response.Status = StatusOK →
        (∀ t k f cm, (repo.SaveFile t k f cm).2 = none →
          repo.GetFile (repo.SaveFile t k f cm).1 k = .ok f) →
        (GetPageHandler env repo cget (PostPageHandler env repo c s).store).response =
          ⟨StatusOK, .page ⟨[],
            if cget.Query (str "format") = str "no-render" then data.Content
            else renderPage env data.Content⟩⟩) := by
  constructor
  · intro d hd
    obtain ⟨hcalls, hstore, hresp⟩ := PutPageHandler_of_existing env repo c s u data d hu hb hd
    have hiff : (PutPageHandler env repo c s).response.Status = StatusOK ↔
        (repo.SaveFile s (normalizePath (c.Param (str "path")))
          ⟨str "text/markdown", data.Content, []⟩
          ⟨u, str "Updated page: " ++ normalizePath (c.Param (str "path"))⟩).2 = none := by
      rw [hresp]
      rcases (repo.SaveFile s (normalizePath (c.Param (str "path")))
          ⟨str "text/markdown", data.Content, []⟩
          ⟨u, str "Updated page: " ++ normalizePath (c.Param (str "path"))⟩).2 with _ | e
      · simp
      · simp [StatusOK, StatusInternalServerError]
    refine ⟨hcalls, hstore, hiff, ?_, ?_⟩
    · intro hok
      rw [hresp, hok]
    · intro cget hpath h200 hread
      have hget : repo.GetFile (PutPageHandler env repo c s).store
          (normalizePath (cget.Param (str "path"))) =
          .ok ⟨str "text/markdown", data.Content, []⟩ := by
        rw [hstore, hpath]
        exact hread _ _ _ _ (hiff.mp h200)
      rw [GetPageHandler_of_written env repo cget _ data.Content hget]
  · intro hnew cget hpath h200 hread
    obtain ⟨hmk, hsv⟩ := PostPageHandler_ok env repo c s u data hu hb hnew h200
    obtain ⟨_, hstore, _⟩ := PostPageHandler_of_new env repo c s u data hu hb hnew hmk
    have hget : repo.GetFile (PostPageHandler env repo c s).store
        (normalizePath (cget.Param (str "path"))) =
        .ok ⟨str "text/markdown", data.Content, []⟩ := by
      rw [hstore, hpath]
      exact hread _ _ _ _ hsv
    rw [GetPageHandler_of_written env repo cget _ data.Content hget]

/-- C10, at a PUT of `new text` on the page `a/b`, which holds an HTML
document titled `Old`, on the backend that refuses writes at another key: the
document written is markdown without metadata, the answer is 200, and the raw
read afterwards has an empty title. -/
theorem put_replaces_document_witness :
    (GetPageHandler sampleEnv guardedRepo
        (mkContext (str "a/b") (some (str "no-render")) none none)
        sampleStore).response = ⟨200, .page ⟨str "Old", str "<b>old</b>"⟩⟩ ∧
    (PutPageHandler sampleEnv guardedRepo
        (mkContext (str "a/b") none (some ⟨str "other/path", str "new text"⟩)
          (some (str "alice")))
        sampleStore).calls =
      [.GetFile (str "a/b/_default.json"),
       .SaveFile (str "a/b/_default.json")
         ⟨str "text/markdown", str "new text", []⟩
         ⟨str "alice", str "Updated page: a/b/_default.json"⟩] ∧
    (PutPageHandler sampleEnv guardedRepo
        (mkContext (str "a/b") none (some ⟨str "other/path", str "new text"⟩)
          (some (str "alice")))
        sampleStore).response = ⟨200, .ApiResponse (str "Updated page.")⟩ ∧
    (GetPageHandler sampleEnv guardedRepo
        (mkContext (str "a/b") (some (str "no-render")) none none)
        (PutPageHandler sampleEnv guardedRepo
          (mkContext (str "a/b") none (some ⟨str "other/path", str "new text"⟩)
            (some (str "alice")))
          sampleStore).store).response = ⟨200, .page ⟨[], str "new text"⟩⟩ ∧
    (guardedRepo.SaveFile sampleStore (str "locked/_default.json")
        ⟨str "text/markdown", str "new text", []⟩
        ⟨str "alice", str "Updated page: locked/_default.json"⟩).2 ≠ none :=
  have h := (put_replaces_document sampleEnv guardedRepo
    (mkContext (str "a/b") none (some ⟨str "other/path", str "new text"⟩)
      (some (str "alice")))
    sampleStore (str "alice") ⟨str "other/path", str "new text"⟩ rfl rfl).1
    ⟨str "text/html", str "<b>old</b>", [(str "title", str "Old")]⟩ rfl
  ⟨rfl, h.1, h.2.2.2.1 rfl,
   h.2.2.2.2 (mkContext (str "a/b") (some (str "no-render")) none none) rfl rfl
     (fun t k f cm hok => by
       by_cases hk : k = str "locked/_default.json"
       · simp [guardedRepo, hk] at hok
       · simp [guardedRepo, memRepo, hk]),
   by decide⟩

end GoWiki
